import Mathlib

/-!
Verification of the HKSI coach-monitor web interface (frontend data layer).

This file gives a shallow embedding, in Lean 4, of the data model and
operations of the repository's frontend:

* `src/frontend/src/contracts/messages.ts` — the WebSocket message contract.
* `src/frontend/src/stores/useStore.ts`    — the central zustand store
  (`handleMessage`, `togglePin`, `selectAthlete`); JS `Record` objects are
  modelled as association lists with JS single-key update semantics.
* `src/frontend/src/data/streamClient.ts`  — the `StreamClient` (message
  parsing/validation, sequence-gap counting, reconnect backoff, stale timer).
* `src/frontend/src/lib/formatters.ts`     — `computeBearing`, with JS
  numbers modelled as real numbers.

TS `number` fields that the store merely copies are modelled as `ℚ`
(respectively `Option ℚ` for `number | null`); geometry in `computeBearing`
is modelled over `ℝ`.  Theorems about the spec's claims follow the
definitions.
-/

namespace HKSI

-- ===========================================================================
-- JS object model: association lists with single-key update
-- ===========================================================================

/-- Lookup of a key in a JS-object model (`obj[k]`, `undefined` ↦ `none`). -/
def getKey {α : Type} : List (String × α) → String → Option α
  | [], _ => none
  | (k', v) :: r, k => if k' = k then some v else getKey r k

/-- Assignment `obj[k] = v` on a JS-object model: replace the binding if the
key is present, otherwise append a new binding. -/
def setKey {α : Type} : List (String × α) → String → α → List (String × α)
  | [], k, v => [(k, v)]
  | (k', v') :: r, k, v =>
      if k' = k then (k, v) :: r else (k', v') :: setKey r k v

theorem getKey_setKey_self {α : Type} (m : List (String × α)) (k : String) (v : α) :
    getKey (setKey m k v) k = some v := by
  induction m with
  | nil => simp [setKey, getKey]
  | cons p r ih =>
      obtain ⟨k', v'⟩ := p
      by_cases h : k' = k
      · simp [setKey, h, getKey]
      · simp [setKey, h, getKey, ih]

theorem getKey_setKey_other {α : Type} (m : List (String × α)) (k i : String) (v : α)
    (h : i ≠ k) : getKey (setKey m k v) i = getKey m i := by
  have hki : ¬k = i := Ne.symm h
  induction m with
  | nil => simp [setKey, getKey, hki]
  | cons p r ih =>
      obtain ⟨k', v'⟩ := p
      by_cases hk : k' = k
      · subst hk
        simp [setKey, getKey, hki]
      · by_cases hi : k' = i
        · simp [setKey, hk, getKey, hi, h]
        · simp [setKey, hk, getKey, hi, ih]

theorem mem_setKey {α : Type} {m : List (String × α)} {k : String} {v : α}
    {p : String × α} (hp : p ∈ setKey m k v) : p ∈ m ∨ p.2 = v := by
  induction m with
  | nil =>
      simp [setKey] at hp
      subst hp; right; rfl
  | cons q r ih =>
      obtain ⟨k', v'⟩ := q
      by_cases h : k' = k
      · simp [setKey, h] at hp
        rcases hp with hp | hp
        · subst hp; right; rfl
        · left; exact List.mem_cons_of_mem _ hp
      · simp [setKey, h] at hp
        rcases hp with hp | hp
        · left; simp [hp]
        · rcases ih hp with h1 | h1
          · left; exact List.mem_cons_of_mem _ h1
          · right; exact h1

theorem getKey_mem {α : Type} {m : List (String × α)} {k : String} {v : α}
    (h : getKey m k = some v) : (k, v) ∈ m := by
  induction m with
  | nil => simp [getKey] at h
  | cons p r ih =>
      obtain ⟨k', v'⟩ := p
      by_cases hk : k' = k
      · subst hk
        simp [getKey] at h
        simp [h]
      · simp [getKey, hk] at h
        exact List.mem_cons_of_mem _ (ih h)

theorem isSome_getKey_setKey {α : Type} (m : List (String × α)) (k : String) (v : α)
    (hk : (getKey m k).isSome) (i : String) :
    (getKey (setKey m k v) i).isSome = (getKey m i).isSome := by
  by_cases h : i = k
  · subst h
    rw [getKey_setKey_self]
    cases hg : getKey m i
    · rw [hg] at hk; simp at hk
    · simp
  · rw [getKey_setKey_other m k i v h]

-- ===========================================================================
-- Message contracts (src/frontend/src/contracts/messages.ts)
-- ===========================================================================

/-- Athlete gate status (contract enum `AthleteStatus`). -/
inductive AthleteStatus
  | SAFE | APPROACHING | RISK | CROSSED | OCS | STALE
  deriving DecidableEq, Repr

/-- Contract enum `CrossingEvent`. -/
inductive CrossingEvent
  | NO_CROSSING | CROSSING_LEFT | CROSSING_RIGHT
  deriving DecidableEq, Repr

/-- Contract enum `EventKind`. -/
inductive EventKind
  | CROSSING | OCS | RISK_ALERT | START_SIGNAL | DEVICE_OFFLINE | DEVICE_ONLINE
  deriving DecidableEq, Repr

/-- Contract enum `DeviceType`. -/
inductive DeviceType
  | ANCHOR | TAG | GATEWAY
  deriving DecidableEq, Repr

/-- Contract enum `GateQuality`. -/
inductive GateQuality
  | GOOD | DEGRADED | UNKNOWN
  deriving DecidableEq, Repr

/-- Contract `PositionEntry`. -/
structure PositionEntry where
  athlete_id : String
  device_id : Nat
  name : String
  team : String
  lat : ℚ
  lon : ℚ
  alt_m : ℚ
  sog_kn : Option ℚ
  cog_deg : Option ℚ
  source_mask : Nat
  device_ts_ms : Int
  data_age_ms : Int
  deriving DecidableEq, Repr

/-- Contract `GateMetricEntry`. -/
structure GateMetricEntry where
  athlete_id : String
  device_id : Nat
  name : String
  dist_to_line_m : ℚ
  s_along : ℚ
  eta_to_line_s : Option ℚ
  speed_to_line_mps : ℚ
  gate_length_m : ℚ
  status : AthleteStatus
  crossing_event : CrossingEvent
  crossing_confidence : ℚ
  position_quality : ℚ
  deriving DecidableEq, Repr

/-- Contract `GateAlert`. -/
structure GateAlert where
  athlete_id : String
  name : String
  event : CrossingEvent
  crossing_ts_ms : Int
  confidence : ℚ
  deriving DecidableEq, Repr

/-- Contract `AnchorPoint`. -/
structure AnchorPoint where
  device_id : Nat
  anchor_id : String
  lat : ℚ
  lon : ℚ
  deriving DecidableEq, Repr

/-- Contract `StartLineDefinitionPayload`. -/
structure StartLineDefinitionPayload where
  anchor_left : AnchorPoint
  anchor_right : AnchorPoint
  gate_length_m : ℚ
  quality : GateQuality
  deriving DecidableEq, Repr

/-- Contract `DeviceHealthPayload`. -/
structure DeviceHealthPayload where
  device_id : String
  device_type : DeviceType
  online : Bool
  last_seen_ms : Int
  battery_pct : Option ℚ
  packet_loss_pct : Option ℚ
  rssi_dbm : Option ℚ
  time_sync_offset_ms : Option ℚ
  deriving DecidableEq, Repr

/-- Contract `EventPayload`; the open-ended `details` record is modelled as
an opaque list of key/value pairs. -/
structure EventPayload where
  event_kind : EventKind
  athlete_id : Option String
  name : Option String
  details : List (String × String)
  deriving DecidableEq, Repr

/-- Contract `HeartbeatPayload`. -/
structure HeartbeatPayload where
  uptime_s : ℚ
  connected_clients : Nat
  zmq_position_connected : Bool
  zmq_gate_connected : Bool
  athletes_tracked : Nat
  messages_relayed : Nat
  deriving DecidableEq, Repr

/-- The `type` discriminant together with the corresponding payload of a
`WSMessage` (the store's `switch (msg.type)` with the `as`-casts).  The
`unknown` constructor captures the `default` branch of the switch. -/
inductive WSPayload
  | positionUpdate (positions : List PositionEntry)
  | gateMetrics (metrics : List GateMetricEntry) (alerts : List GateAlert)
  | startLineDefinition (p : StartLineDefinitionPayload)
  | deviceHealth (p : DeviceHealthPayload)
  | event (p : EventPayload)
  | heartbeat (p : HeartbeatPayload)
  | unknown (t : String)
  deriving DecidableEq, Repr

/-- Contract envelope `WSMessage`. -/
structure WSMessage where
  schema_version : String
  seq : Int
  ts_ms : Int
  session_id : Option String
  payload : WSPayload
  deriving DecidableEq, Repr

-- ===========================================================================
-- Store (src/frontend/src/stores/useStore.ts)
-- ===========================================================================

/-- Constant `MAX_TRACK_POINTS` (useStore.ts line 29). -/
def MAX_TRACK_POINTS : Nat := 200

/-- Store `TrackPoint`. -/
structure TrackPoint where
  lat : ℚ
  lon : ℚ
  ts_ms : Int
  deriving DecidableEq, Repr

/-- Store `AthleteState` (merged position + gate metrics + UI state). -/
structure AthleteState where
  athlete_id : String
  device_id : Nat
  name : String
  team : String
  lat : ℚ
  lon : ℚ
  alt_m : ℚ
  sog_kn : Option ℚ
  cog_deg : Option ℚ
  source_mask : Nat
  device_ts_ms : Int
  data_age_ms : Int
  dist_to_line_m : Option ℚ
  eta_to_line_s : Option ℚ
  speed_to_line_mps : Option ℚ
  status : AthleteStatus
  position_quality : Option ℚ
  track : List TrackPoint
  pinned : Bool
  selected : Bool
  last_update_ms : Int
  deriving DecidableEq, Repr

/-- The athletes table: JS `Record<string, AthleteState>` keyed by
`athlete_id`, modelled as an association list. -/
abbrev AthleteMap := List (String × AthleteState)

/-- Store connection status (streamClient's `ConnectionStatus`). -/
inductive ConnectionStatus
  | connecting | connected | disconnected
  deriving DecidableEq, Repr

/-- An entry of the bounded events log (`{...payload, ts_ms: msg.ts_ms}`). -/
structure EventRecord where
  payload : EventPayload
  ts_ms : Int
  deriving DecidableEq, Repr

/-- The store state (`AppState` in useStore.ts, data fields). -/
structure AppState where
  connectionStatus : ConnectionStatus
  lastMessageTs : Int
  sessionId : Option String
  athletes : AthleteMap
  startLine : Option StartLineDefinitionPayload
  events : List EventRecord
  deviceHealth : List (String × DeviceHealthPayload)
  heartbeat : Option HeartbeatPayload
  sortColumn : String
  sortAscending : Bool
  filterText : String
  deriving DecidableEq, Repr

/-- The store's initial state. -/
def initialAppState : AppState :=
  { connectionStatus := .disconnected
    lastMessageTs := 0
    sessionId := none
    athletes := []
    startLine := none
    events := []
    deviceHealth := []
    heartbeat := none
    sortColumn := "dist_to_line_m"
    sortAscending := true
    filterText := "" }

/-- JS `list.slice(-n)`: the last `n` elements (whole list when shorter). -/
def lastN {α : Type} (n : Nat) (l : List α) : List α :=
  l.drop (l.length - n)

theorem length_lastN {α : Type} (n : Nat) (l : List α) : (lastN n l).length ≤ n := by
  simp only [lastN, List.length_drop]
  omega

/-- The athlete value written by the `position_update` branch: spread of
`existing ?? defaults` overridden by the position fields, the new track and
`last_update_ms := now` (useStore.ts lines 142-166). -/
def mkAthleteFromPos (now : Int) (pos : PositionEntry) (existing : Option AthleteState)
    (newTrack : List TrackPoint) : AthleteState :=
  { athlete_id := pos.athlete_id
    device_id := pos.device_id
    name := pos.name
    team := pos.team
    lat := pos.lat
    lon := pos.lon
    alt_m := pos.alt_m
    sog_kn := pos.sog_kn
    cog_deg := pos.cog_deg
    source_mask := pos.source_mask
    device_ts_ms := pos.device_ts_ms
    data_age_ms := pos.data_age_ms
    dist_to_line_m := match existing with | some a => a.dist_to_line_m | none => none
    eta_to_line_s := match existing with | some a => a.eta_to_line_s | none => none
    speed_to_line_mps := match existing with | some a => a.speed_to_line_mps | none => none
    status := match existing with | some a => a.status | none => .SAFE
    position_quality := match existing with | some a => a.position_quality | none => none
    track := newTrack
    pinned := match existing with | some a => a.pinned | none => false
    selected := match existing with | some a => a.selected | none => false
    last_update_ms := now }

/-- One iteration of the `position_update` loop (useStore.ts lines 133-167). -/
def applyPosition (now : Int) (m : AthleteMap) (pos : PositionEntry) : AthleteMap :=
  let existing := getKey m pos.athlete_id
  let track := match existing with | some a => a.track | none => []
  let newTrack := lastN (MAX_TRACK_POINTS - 1) track ++
    [{ lat := pos.lat, lon := pos.lon, ts_ms := pos.device_ts_ms }]
  setKey m pos.athlete_id (mkAthleteFromPos now pos existing newTrack)

/-- The whole `position_update` loop. -/
def applyPositions (now : Int) (m : AthleteMap) (ps : List PositionEntry) : AthleteMap :=
  ps.foldl (applyPosition now) m

/-- Gate-field overwrite performed by `gate_metrics` on an existing athlete
(useStore.ts lines 183-190). -/
def updGate (a : AthleteState) (g : GateMetricEntry) : AthleteState :=
  { a with
    dist_to_line_m := some g.dist_to_line_m
    eta_to_line_s := g.eta_to_line_s
    speed_to_line_mps := some g.speed_to_line_mps
    status := g.status
    position_quality := some g.position_quality }

/-- One iteration of the `gate_metrics` loop: merge only when the athlete
already exists (useStore.ts lines 180-192). -/
def applyGate (m : AthleteMap) (g : GateMetricEntry) : AthleteMap :=
  match getKey m g.athlete_id with
  | some a => setKey m g.athlete_id (updGate a g)
  | none => m

/-- The whole `gate_metrics` loop. -/
def applyGateMetrics (m : AthleteMap) (gs : List GateMetricEntry) : AthleteMap :=
  gs.foldl applyGate m

/-- The store's `handleMessage` action; `now` stands for `Date.now()`. -/
def handleMessage (now : Int) (s : AppState) (msg : WSMessage) : AppState :=
  match msg.payload with
  | .positionUpdate positions =>
      { s with
        athletes := applyPositions now s.athletes positions
        lastMessageTs := now
        sessionId := msg.session_id }
  | .gateMetrics metrics _alerts =>
      { s with
        athletes := applyGateMetrics s.athletes metrics
        lastMessageTs := now }
  | .startLineDefinition p =>
      { s with startLine := some p, lastMessageTs := now }
  | .deviceHealth p =>
      { s with
        deviceHealth := setKey s.deviceHealth p.device_id p
        lastMessageTs := now }
  | .event p =>
      { s with
        events := lastN 99 s.events ++ [{ payload := p, ts_ms := msg.ts_ms }]
        lastMessageTs := now }
  | .heartbeat p =>
      { s with heartbeat := some p, lastMessageTs := now, sessionId := msg.session_id }
  | .unknown _t => s

/-- Handle a sequence of messages, each paired with its `Date.now()` value. -/
def processMessages (s : AppState) (l : List (Int × WSMessage)) : AppState :=
  l.foldl (fun st p => handleMessage p.1 st p.2) s

/-- The store's `togglePin` action (useStore.ts lines 239-249). -/
def togglePin (s : AppState) (athleteId : String) : AppState :=
  match getKey s.athletes athleteId with
  | none => s
  | some a =>
      { s with athletes := setKey s.athletes athleteId { a with pinned := !a.pinned } }

/-- The store's `selectAthlete` action (useStore.ts lines 251-258): every
entry's `selected` becomes `id === athleteId` for its key `id`. -/
def selectAthlete (s : AppState) (athleteId : Option String) : AppState :=
  { s with
    athletes := s.athletes.map fun p =>
      (p.1, { p.2 with selected := decide (athleteId = some p.1) }) }

/-- Envelope carrying a `gate_metrics` payload. -/
def gateMsg (sv : String) (sq tms : Int) (sid : Option String)
    (metrics : List GateMetricEntry) (alerts : List GateAlert) : WSMessage :=
  { schema_version := sv, seq := sq, ts_ms := tms, session_id := sid
    payload := .gateMetrics metrics alerts }

/-- Envelope carrying a `position_update` payload. -/
def posMsg (sv : String) (sq tms : Int) (sid : Option String)
    (positions : List PositionEntry) : WSMessage :=
  { schema_version := sv, seq := sq, ts_ms := tms, session_id := sid
    payload := .positionUpdate positions }

-- ===========================================================================
-- Store lemmas
-- ===========================================================================

/-- The last entry of `gs` whose `athlete_id` is `id` (the one whose gate
fields win after the merge loop). -/
def lastGateFor (id : String) : List GateMetricEntry → Option GateMetricEntry
  | [] => none
  | g :: gs =>
      match lastGateFor id gs with
      | some h => some h
      | none => if g.athlete_id = id then some g else none

/-- The cumulative effect of the `gate_metrics` loop on the single athlete
keyed `id`. -/
def gateFold (id : String) (gs : List GateMetricEntry) (a : AthleteState) : AthleteState :=
  gs.foldl (fun x g => if g.athlete_id = id then updGate x g else x) a

theorem gateFold_nil (id : String) (a : AthleteState) : gateFold id [] a = a := rfl

theorem gateFold_cons (id : String) (g : GateMetricEntry) (gs : List GateMetricEntry)
    (a : AthleteState) :
    gateFold id (g :: gs) a = gateFold id gs (if g.athlete_id = id then updGate a g else a) :=
  rfl

theorem getKey_applyGateMetrics (gs : List GateMetricEntry) (m : AthleteMap)
    (id : String) (a : AthleteState) (h : getKey m id = some a) :
    getKey (applyGateMetrics m gs) id = some (gateFold id gs a) := by
  induction gs generalizing m a with
  | nil => simpa [applyGateMetrics, gateFold] using h
  | cons g gs ih =>
      show getKey (applyGateMetrics (applyGate m g) gs) id = _
      rw [gateFold_cons]
      by_cases hg : g.athlete_id = id
      · subst hg
        rw [if_pos rfl]
        have h2 : getKey (applyGate m g) g.athlete_id = some (updGate a g) := by
          unfold applyGate
          rw [h]
          exact getKey_setKey_self m g.athlete_id (updGate a g)
        exact ih _ _ h2
      · rw [if_neg hg]
        have h2 : getKey (applyGate m g) id = some a := by
          unfold applyGate
          cases hb : getKey m g.athlete_id with
          | none => exact h
          | some b =>
              rw [getKey_setKey_other _ _ _ _ (Ne.symm hg)]
              exact h
        exact ih _ _ h2

theorem gateFold_preserves (id : String) (gs : List GateMetricEntry) :
    ∀ a : AthleteState,
      (gateFold id gs a).athlete_id = a.athlete_id ∧
      (gateFold id gs a).device_id = a.device_id ∧
      (gateFold id gs a).name = a.name ∧
      (gateFold id gs a).team = a.team ∧
      (gateFold id gs a).lat = a.lat ∧
      (gateFold id gs a).lon = a.lon ∧
      (gateFold id gs a).alt_m = a.alt_m ∧
      (gateFold id gs a).sog_kn = a.sog_kn ∧
      (gateFold id gs a).cog_deg = a.cog_deg ∧
      (gateFold id gs a).source_mask = a.source_mask ∧
      (gateFold id gs a).device_ts_ms = a.device_ts_ms ∧
      (gateFold id gs a).data_age_ms = a.data_age_ms ∧
      (gateFold id gs a).track = a.track ∧
      (gateFold id gs a).pinned = a.pinned ∧
      (gateFold id gs a).selected = a.selected ∧
      (gateFold id gs a).last_update_ms = a.last_update_ms := by
  induction gs with
  | nil => intro a; simp [gateFold]
  | cons g gs ih =>
      intro a
      rw [gateFold_cons]
      by_cases hg : g.athlete_id = id
      · rw [if_pos hg]
        simpa [updGate] using ih (updGate a g)
      · rw [if_neg hg]
        exact ih a

theorem gateFold_gate_fields (id : String) (gs : List GateMetricEntry) :
    ∀ a : AthleteState,
      (∀ g, lastGateFor id gs = some g →
        (gateFold id gs a).dist_to_line_m = some g.dist_to_line_m ∧
        (gateFold id gs a).eta_to_line_s = g.eta_to_line_s ∧
        (gateFold id gs a).speed_to_line_mps = some g.speed_to_line_mps ∧
        (gateFold id gs a).status = g.status ∧
        (gateFold id gs a).position_quality = some g.position_quality) ∧
      (lastGateFor id gs = none → gateFold id gs a = a) := by
  induction gs with
  | nil =>
      intro a
      refine ⟨?_, fun _ => rfl⟩
      intro g hg
      simp [lastGateFor] at hg
  | cons g gs ih =>
      intro a
      rw [gateFold_cons]
      cases hL : lastGateFor id gs with
      | some h0 =>
          refine ⟨?_, ?_⟩
          · intro g' hg'
            have : lastGateFor id (g :: gs) = some h0 := by simp [lastGateFor, hL]
            rw [this] at hg'
            have hEq : h0 = g' := by injection hg'
            subst hEq
            exact (ih _).1 h0 hL
          · intro hn
            have : lastGateFor id (g :: gs) = some h0 := by simp [lastGateFor, hL]
            rw [this] at hn
            exact absurd hn (by simp)
      | none =>
          by_cases hg : g.athlete_id = id
          · have hc : lastGateFor id (g :: gs) = some g := by
              simp [lastGateFor, hL, hg]
            refine ⟨?_, ?_⟩
            · intro g' hg'
              rw [hc] at hg'
              have hEq : g = g' := by injection hg'
              subst hEq
              rw [if_pos hg]
              have hpres := gateFold_preserves id gs (updGate a g)
              have hid := (ih (updGate a g)).2 hL
              rw [hid]
              simp [updGate]
            · intro hn
              rw [hc] at hn
              exact absurd hn (by simp)
          · have hc : lastGateFor id (g :: gs) = none := by
              simp [lastGateFor, hL, hg]
            refine ⟨?_, ?_⟩
            · intro g' hg'
              rw [hc] at hg'
              exact absurd hg' (by simp)
            · intro _
              rw [if_neg hg]
              exact (ih a).2 hL

theorem isSome_getKey_applyGateMetrics (gs : List GateMetricEntry) :
    ∀ (m : AthleteMap) (i : String),
      (getKey (applyGateMetrics m gs) i).isSome = (getKey m i).isSome := by
  induction gs with
  | nil => intro m i; rfl
  | cons g gs ih =>
      intro m i
      show (getKey (applyGateMetrics (applyGate m g) gs) i).isSome = _
      rw [ih]
      unfold applyGate
      cases hb : getKey m g.athlete_id with
      | none => rfl
      | some b =>
          exact isSome_getKey_setKey m g.athlete_id (updGate b g) (by rw [hb]; rfl) i

theorem applyGate_of_none (m : AthleteMap) (g : GateMetricEntry)
    (h : getKey m g.athlete_id = none) : applyGate m g = m := by
  unfold applyGate
  rw [h]

/-- Every athlete present before a `position_update` is still present after,
with `status`, gate fields and UI fields untouched. -/
theorem applyPositions_preserves_status (now : Int) (ps : List PositionEntry) :
    ∀ (m : AthleteMap) (id : String) (a : AthleteState),
      getKey m id = some a →
      ∃ a', getKey (applyPositions now m ps) id = some a' ∧
        a'.status = a.status ∧
        a'.dist_to_line_m = a.dist_to_line_m ∧
        a'.eta_to_line_s = a.eta_to_line_s ∧
        a'.speed_to_line_mps = a.speed_to_line_mps ∧
        a'.position_quality = a.position_quality ∧
        a'.pinned = a.pinned ∧
        a'.selected = a.selected := by
  induction ps with
  | nil =>
      intro m id a h
      exact ⟨a, h, rfl, rfl, rfl, rfl, rfl, rfl, rfl⟩
  | cons pos ps ih =>
      intro m id a h
      show ∃ a', getKey (applyPositions now (applyPosition now m pos) ps) id = some a' ∧ _
      by_cases hp : pos.athlete_id = id
      · subst hp
        have h2 : getKey (applyPosition now m pos) pos.athlete_id =
            some (mkAthleteFromPos now pos (some a)
              (lastN (MAX_TRACK_POINTS - 1) a.track ++
                [{ lat := pos.lat, lon := pos.lon, ts_ms := pos.device_ts_ms }])) := by
          unfold applyPosition
          rw [h]
          exact getKey_setKey_self _ _ _
        obtain ⟨a', ha', h1, h2', h3, h4, h5, h6, h7⟩ := ih _ _ _ h2
        exact ⟨a', ha', by simpa [mkAthleteFromPos] using h1,
          by simpa [mkAthleteFromPos] using h2', by simpa [mkAthleteFromPos] using h3,
          by simpa [mkAthleteFromPos] using h4, by simpa [mkAthleteFromPos] using h5,
          by simpa [mkAthleteFromPos] using h6, by simpa [mkAthleteFromPos] using h7⟩
      · have h2 : getKey (applyPosition now m pos) id = some a := by
          unfold applyPosition
          rw [getKey_setKey_other _ _ _ _ (Ne.symm hp)]
          exact h
        exact ih _ _ _ h2

theorem track_bound_applyPositions (now : Int) (ps : List PositionEntry) :
    ∀ m : AthleteMap, (∀ p ∈ m, p.2.track.length ≤ MAX_TRACK_POINTS) →
      ∀ p ∈ applyPositions now m ps, p.2.track.length ≤ MAX_TRACK_POINTS := by
  induction ps with
  | nil => intro m hm; exact hm
  | cons pos ps ih =>
      intro m hm
      show ∀ p ∈ applyPositions now (applyPosition now m pos) ps, _
      apply ih
      intro p hp
      simp only [applyPosition] at hp
      rcases mem_setKey hp with h | h
      · exact hm p h
      · rw [h]
        show (lastN (MAX_TRACK_POINTS - 1) _ ++ [_]).length ≤ MAX_TRACK_POINTS
        rw [List.length_append]
        have h1 := length_lastN (MAX_TRACK_POINTS - 1)
          (match getKey m pos.athlete_id with | some a => a.track | none => [])
        simp only [List.length_singleton, MAX_TRACK_POINTS] at h1 ⊢
        omega

theorem track_bound_applyGateMetrics (gs : List GateMetricEntry) :
    ∀ m : AthleteMap, (∀ p ∈ m, p.2.track.length ≤ MAX_TRACK_POINTS) →
      ∀ p ∈ applyGateMetrics m gs, p.2.track.length ≤ MAX_TRACK_POINTS := by
  induction gs with
  | nil => intro m hm; exact hm
  | cons g gs ih =>
      intro m hm
      show ∀ p ∈ applyGateMetrics (applyGate m g) gs, _
      apply ih
      intro p hp
      revert hp
      unfold applyGate
      cases hb : getKey m g.athlete_id with
      | none => exact fun hp => hm p hp
      | some b =>
          intro hp
          rcases mem_setKey hp with h | h
          · exact hm p h
          · rw [h]
            show b.track.length ≤ MAX_TRACK_POINTS
            exact hm (g.athlete_id, b) (getKey_mem hb)

/-- Boundedness of the store's ring buffers: per-athlete tracks and the
events log. -/
def BoundedBuffers (s : AppState) : Prop :=
  (∀ p ∈ s.athletes, p.2.track.length ≤ MAX_TRACK_POINTS) ∧ s.events.length ≤ 100

theorem handleMessage_bounded (now : Int) (s : AppState) (msg : WSMessage)
    (h : BoundedBuffers s) : BoundedBuffers (handleMessage now s msg) := by
  obtain ⟨sv, sq, tms, sid, pl⟩ := msg
  obtain ⟨ht, he⟩ := h
  cases pl with
  | positionUpdate ps => exact ⟨track_bound_applyPositions now ps s.athletes ht, he⟩
  | gateMetrics ms as => exact ⟨track_bound_applyGateMetrics ms s.athletes ht, he⟩
  | startLineDefinition p => exact ⟨ht, he⟩
  | deviceHealth p =>
      refine ⟨?_, he⟩
      show ∀ p ∈ s.athletes, _
      exact ht
  | event p =>
      refine ⟨ht, ?_⟩
      show (lastN 99 s.events ++ [({ payload := p, ts_ms := tms } : EventRecord)]).length ≤ 100
      have h99 := length_lastN 99 s.events
      rw [List.length_append]
      simp only [List.length_singleton]
      omega
  | heartbeat p => exact ⟨ht, he⟩
  | unknown t => exact ⟨ht, he⟩

theorem processMessages_bounded (l : List (Int × WSMessage)) :
    ∀ s : AppState, BoundedBuffers s → BoundedBuffers (processMessages s l) := by
  induction l with
  | nil => intro s h; exact h
  | cons p l ih =>
      intro s h
      exact ih (handleMessage p.1 s p.2) (handleMessage_bounded p.1 s p.2 h)

-- ===========================================================================
-- Concrete demonstration data (used by counterexamples and witnesses)
-- ===========================================================================

/-- A concrete position entry for athlete `A`. -/
def posA : PositionEntry :=
  { athlete_id := "A", device_id := 7, name := "Ann", team := "T1"
    lat := 22, lon := 114, alt_m := 0, sog_kn := some 5, cog_deg := some 90
    source_mask := 1, device_ts_ms := 100, data_age_ms := 10 }

/-- A concrete position entry for athlete `B`. -/
def posB : PositionEntry :=
  { posA with athlete_id := "B", device_id := 8, name := "Bo", team := "T2" }

/-- A `position_update` message carrying `posA`. -/
def msgPosA : WSMessage := posMsg "1.0" 1 100 (some "s1") [posA]

/-- A `position_update` message carrying `posB`. -/
def msgPosB : WSMessage := posMsg "1.0" 2 110 (some "s1") [posB]

/-- A gate metric for athlete `A` with status `SAFE`. -/
def gSafe : GateMetricEntry :=
  { athlete_id := "A", device_id := 7, name := "Ann", dist_to_line_m := 12
    s_along := 0, eta_to_line_s := some 3, speed_to_line_mps := 4
    gate_length_m := 500, status := .SAFE, crossing_event := .NO_CROSSING
    crossing_confidence := 1, position_quality := 1 }

/-- A gate metric for athlete `A` with status `CROSSED`. -/
def gCrossed : GateMetricEntry :=
  { gSafe with status := .CROSSED, crossing_event := .CROSSING_LEFT, dist_to_line_m := -2 }

/-- A gate metric for an athlete `B` (used while `B` is not in the table). -/
def gB : GateMetricEntry := { gSafe with athlete_id := "B", device_id := 8, name := "Bo" }

/-- A `gate_metrics` message carrying `gCrossed`, same session as `msgPosA`. -/
def msgGateCrossed : WSMessage := gateMsg "1.0" 2 200 (some "s1") [gCrossed] []

/-- A `gate_metrics` message carrying `gSafe`, same session as `msgPosA`. -/
def msgGateSafe : WSMessage := gateMsg "1.0" 3 300 (some "s1") [gSafe] []

/-- The store after ingesting `msgPosA` only. -/
def storeA : AppState := handleMessage 0 initialAppState msgPosA

/-- The store after ingesting `msgPosA` then `msgPosB`. -/
def storeAB : AppState := handleMessage 0 storeA msgPosB

/-- The athlete-state value stored for `A` in `storeA`. -/
def athleteA : AthleteState :=
  mkAthleteFromPos 0 posA none [{ lat := 22, lon := 114, ts_ms := 100 }]

/-- A short concrete message trace. -/
def demoTrace : List (Int × WSMessage) :=
  [(0, msgPosA), (0, msgPosB), (1, msgGateCrossed), (2, msgGateSafe)]

-- ===========================================================================
-- Claim theorems: the store
-- ===========================================================================

/-- C1, counterexample.  The claim states that once an athlete's status is
`CROSSED` the state is latched: no later `gate_metrics` or `position_update`
handled in the same session moves it back to `SAFE/APPROACHING/RISK` without
an operator reset.  On the code this is false: after athlete `A` reaches
`CROSSED` (via `msgGateCrossed`), handling `msgGateSafe` — a `gate_metrics`
frame of the same session `"s1"`, with no reset in between — sets the status
back to `SAFE`, because the `gate_metrics` branch of `handleMessage`
overwrites `status` with the carried value unconditionally. -/
theorem crossing_latch_counterexample :
    (getKey (processMessages initialAppState
        [(0, msgPosA), (1, msgGateCrossed)]).athletes "A").map AthleteState.status
      = some .CROSSED
    ∧ msgGateSafe.session_id = msgGateCrossed.session_id
    ∧ (getKey (processMessages initialAppState
        [(0, msgPosA), (1, msgGateCrossed), (2, msgGateSafe)]).athletes "A").map AthleteState.status
      = some .SAFE := by
  decide

/-- C1, amended.  What the store actually guarantees: a `position_update`
never changes an existing athlete's status (so it cannot regress a
`CROSSED`/`OCS` athlete), while a `gate_metrics` message sets the status of
each carried athlete verbatim to the carried value — the client itself does
not enforce the CROSSED/OCS latch and relies on upstream for it. -/
theorem crossing_latch_amended :
    (∀ (now : Int) (s : AppState) (positions : List PositionEntry) (sv : String)
        (sq tms : Int) (sid : Option String) (id : String) (a : AthleteState),
      getKey s.athletes id = some a →
      ∃ a', getKey ((handleMessage now s (posMsg sv sq tms sid positions)).athletes) id = some a'
        ∧ a'.status = a.status)
    ∧ (∀ (now : Int) (s : AppState) (metrics : List GateMetricEntry) (alerts : List GateAlert)
        (sv : String) (sq tms : Int) (sid : Option String) (id : String) (a : AthleteState)
        (g : GateMetricEntry),
      getKey s.athletes id = some a → lastGateFor id metrics = some g →
      ∃ a', getKey ((handleMessage now s (gateMsg sv sq tms sid metrics alerts)).athletes) id = some a'
        ∧ a'.status = g.status) := by
  refine ⟨?_, ?_⟩
  · intro now s positions sv sq tms sid id a h
    obtain ⟨a', ha', hs, _⟩ := applyPositions_preserves_status now positions s.athletes id a h
    exact ⟨a', ha', hs⟩
  · intro now s metrics alerts sv sq tms sid id a g h hg
    refine ⟨gateFold id metrics a, ?_, ?_⟩
    · show getKey (applyGateMetrics s.athletes metrics) id = _
      exact getKey_applyGateMetrics metrics s.athletes id a h
    · exact ((gateFold_gate_fields id metrics a).1 g hg).2.2.2.1

/-- Witness for the amended C1 at concrete inputs. -/
theorem crossing_latch_amended_witness :
    (∃ a', getKey ((handleMessage 5 storeA (posMsg "1.0" 9 500 (some "s1") [posA])).athletes) "A"
        = some a' ∧ a'.status = athleteA.status)
    ∧ (∃ a', getKey ((handleMessage 6 storeA (gateMsg "1.0" 10 600 (some "s1") [gCrossed] [])).athletes) "A"
        = some a' ∧ a'.status = gCrossed.status) :=
  ⟨crossing_latch_amended.1 5 storeA [posA] "1.0" 9 500 (some "s1") "A" athleteA (by decide),
   crossing_latch_amended.2 6 storeA [gCrossed] [] "1.0" 10 600 (some "s1") "A" athleteA gCrossed
     (by decide) (by decide)⟩

/-- C6: handling a `gate_metrics` message merges per existing athlete: the
five gate fields take the carried values (last carried entry wins) while the
position-derived fields (`lat`, `lon`, `alt_m`, `sog_kn`, `cog_deg`,
`source_mask`, `device_ts_ms`, `data_age_ms`, `track`) and the UI fields
(`pinned`, `selected`) are unchanged; an athlete with no carried entry is
untouched entirely. -/
theorem gate_metrics_merge_fields (now : Int) (s : AppState)
    (metrics : List GateMetricEntry) (alerts : List GateAlert)
    (sv : String) (sq tms : Int) (sid : Option String)
    (id : String) (a : AthleteState)
    (h : getKey s.athletes id = some a) :
    ∃ a', getKey ((handleMessage now s (gateMsg sv sq tms sid metrics alerts)).athletes) id = some a' ∧
      (a'.lat = a.lat ∧ a'.lon = a.lon ∧ a'.alt_m = a.alt_m ∧
       a'.sog_kn = a.sog_kn ∧ a'.cog_deg = a.cog_deg ∧ a'.source_mask = a.source_mask ∧
       a'.device_ts_ms = a.device_ts_ms ∧ a'.data_age_ms = a.data_age_ms ∧
       a'.track = a.track ∧ a'.pinned = a.pinned ∧ a'.selected = a.selected) ∧
      (∀ g, lastGateFor id metrics = some g →
        a'.dist_to_line_m = some g.dist_to_line_m ∧
        a'.eta_to_line_s = g.eta_to_line_s ∧
        a'.speed_to_line_mps = some g.speed_to_line_mps ∧
        a'.status = g.status ∧
        a'.position_quality = some g.position_quality) ∧
      (lastGateFor id metrics = none → a' = a) := by
  have hkey : getKey ((handleMessage now s (gateMsg sv sq tms sid metrics alerts)).athletes) id
      = some (gateFold id metrics a) := by
    show getKey (applyGateMetrics s.athletes metrics) id = _
    exact getKey_applyGateMetrics metrics s.athletes id a h
  refine ⟨gateFold id metrics a, hkey, ?_, ?_, ?_⟩
  · obtain ⟨_, _, _, _, h5, h6, h7, h8, h9, h10, h11, h12, h13, h14, h15, _⟩ :=
      gateFold_preserves id metrics a
    exact ⟨h5, h6, h7, h8, h9, h10, h11, h12, h13, h14, h15⟩
  · exact (gateFold_gate_fields id metrics a).1
  · exact (gateFold_gate_fields id metrics a).2

/-- Witness for C6 at concrete inputs. -/
theorem gate_metrics_merge_fields_witness :
    ∃ a', getKey ((handleMessage 1 storeA (gateMsg "1.0" 2 200 (some "s1") [gCrossed] [])).athletes) "A"
        = some a' ∧
      (a'.lat = athleteA.lat ∧ a'.lon = athleteA.lon ∧ a'.alt_m = athleteA.alt_m ∧
       a'.sog_kn = athleteA.sog_kn ∧ a'.cog_deg = athleteA.cog_deg ∧
       a'.source_mask = athleteA.source_mask ∧
       a'.device_ts_ms = athleteA.device_ts_ms ∧ a'.data_age_ms = athleteA.data_age_ms ∧
       a'.track = athleteA.track ∧ a'.pinned = athleteA.pinned ∧ a'.selected = athleteA.selected) ∧
      (∀ g, lastGateFor "A" [gCrossed] = some g →
        a'.dist_to_line_m = some g.dist_to_line_m ∧
        a'.eta_to_line_s = g.eta_to_line_s ∧
        a'.speed_to_line_mps = some g.speed_to_line_mps ∧
        a'.status = g.status ∧
        a'.position_quality = some g.position_quality) ∧
      (lastGateFor "A" [gCrossed] = none → a' = athleteA) :=
  gate_metrics_merge_fields 1 storeA [gCrossed] [] "1.0" 2 200 (some "s1") "A" athleteA (by decide)

/-- C9: a `gate_metrics` entry for an athlete that is not in the table is
silently ignored — the resulting table is the one obtained with the entry
removed; the table's key set is never changed by `gate_metrics`; and no
message other than a `position_update` ever changes the key set, so an
athlete only enters the table via a `position_update`. -/
theorem gate_metrics_unknown_ignored (now : Int) (s : AppState)
    (pre post : List GateMetricEntry) (g : GateMetricEntry) (alerts : List GateAlert)
    (sv : String) (sq tms : Int) (sid : Option String)
    (hg : getKey s.athletes g.athlete_id = none) :
    ((handleMessage now s (gateMsg sv sq tms sid (pre ++ g :: post) alerts)).athletes
        = (handleMessage now s (gateMsg sv sq tms sid (pre ++ post) alerts)).athletes)
    ∧ (∀ i, (getKey ((handleMessage now s (gateMsg sv sq tms sid (pre ++ g :: post) alerts)).athletes) i).isSome
          = (getKey s.athletes i).isSome)
    ∧ (∀ msg : WSMessage, (∀ ps, msg.payload ≠ .positionUpdate ps) →
        ∀ i, (getKey ((handleMessage now s msg).athletes) i).isSome
          = (getKey s.athletes i).isSome) := by
  refine ⟨?_, ?_, ?_⟩
  · show applyGateMetrics s.athletes (pre ++ g :: post) = applyGateMetrics s.athletes (pre ++ post)
    have h1 : applyGateMetrics s.athletes (pre ++ g :: post)
        = applyGateMetrics (applyGate (applyGateMetrics s.athletes pre) g) post := by
      simp [applyGateMetrics, List.foldl_append]
    have h2 : applyGateMetrics s.athletes (pre ++ post)
        = applyGateMetrics (applyGateMetrics s.athletes pre) post := by
      simp [applyGateMetrics, List.foldl_append]
    have hmid : getKey (applyGateMetrics s.athletes pre) g.athlete_id = none := by
      have := isSome_getKey_applyGateMetrics pre s.athletes g.athlete_id
      rw [hg] at this
      cases hmm : getKey (applyGateMetrics s.athletes pre) g.athlete_id with
      | none => rfl
      | some b => rw [hmm] at this; simp at this
    rw [h1, h2, applyGate_of_none _ _ hmid]
  · intro i
    show (getKey (applyGateMetrics s.athletes (pre ++ g :: post)) i).isSome = _
    exact isSome_getKey_applyGateMetrics _ s.athletes i
  · intro msg hmsg i
    obtain ⟨sv', sq', tms', sid', pl⟩ := msg
    cases pl with
    | positionUpdate ps => exact absurd rfl (hmsg ps)
    | gateMetrics ms as =>
        exact isSome_getKey_applyGateMetrics ms s.athletes i
    | startLineDefinition p => rfl
    | deviceHealth p => rfl
    | event p => rfl
    | heartbeat p => rfl
    | unknown t => rfl

/-- Witness for C9 at concrete inputs: athlete `B` is not in `storeA`. -/
theorem gate_metrics_unknown_ignored_witness :
    ((handleMessage 1 storeA (gateMsg "1.0" 2 200 (some "s1") ([] ++ gB :: [gCrossed]) [])).athletes
        = (handleMessage 1 storeA (gateMsg "1.0" 2 200 (some "s1") ([] ++ [gCrossed]) [])).athletes)
    ∧ (∀ i, (getKey ((handleMessage 1 storeA (gateMsg "1.0" 2 200 (some "s1") ([] ++ gB :: [gCrossed]) [])).athletes) i).isSome
          = (getKey storeA.athletes i).isSome)
    ∧ (∀ msg : WSMessage, (∀ ps, msg.payload ≠ .positionUpdate ps) →
        ∀ i, (getKey ((handleMessage 1 storeA msg).athletes) i).isSome
          = (getKey storeA.athletes i).isSome) :=
  gate_metrics_unknown_ignored 1 storeA [] [gCrossed] gB [] "1.0" 2 200 (some "s1") (by decide)

/-- C7: starting from the initial store, after any sequence of handled
messages every athlete's track holds at most `MAX_TRACK_POINTS = 200` points
and the events log holds at most 100 entries. -/
theorem store_buffers_bounded (l : List (Int × WSMessage)) :
    BoundedBuffers (processMessages initialAppState l) :=
  processMessages_bounded l initialAppState
    ⟨fun p hp => absurd hp (by simp [initialAppState]), by norm_num [initialAppState]⟩

/-- Witness for C7 at a concrete trace. -/
theorem store_buffers_bounded_witness : BoundedBuffers (processMessages initialAppState demoTrace) :=
  store_buffers_bounded demoTrace

/-- C10: after `selectAthlete target`, an entry is selected exactly when its
key (the athlete id the table is keyed by) equals `target`; hence at most
one athlete is selected, and `selectAthlete none` (the JS `null`) deselects
every athlete. -/
theorem selectAthlete_unique_selection (s : AppState) (target : Option String) :
    (∀ p ∈ (selectAthlete s target).athletes, p.2.selected = true ↔ target = some p.1)
    ∧ (∀ p ∈ (selectAthlete s target).athletes, ∀ q ∈ (selectAthlete s target).athletes,
        p.2.selected = true → q.2.selected = true → p.1 = q.1)
    ∧ (target = none → ∀ p ∈ (selectAthlete s target).athletes, p.2.selected = false) := by
  refine ⟨?_, ?_, ?_⟩
  · intro p hp
    simp only [selectAthlete, List.mem_map] at hp
    obtain ⟨q, _, rfl⟩ := hp
    simp
  · intro p hp q hq hps hqs
    simp only [selectAthlete, List.mem_map] at hp hq
    obtain ⟨p0, _, rfl⟩ := hp
    obtain ⟨q0, _, rfl⟩ := hq
    simp only [decide_eq_true_eq] at hps hqs
    rw [hps] at hqs
    exact Option.some.inj hqs
  · rintro rfl p hp
    simp only [selectAthlete, List.mem_map] at hp
    obtain ⟨q, _, rfl⟩ := hp
    simp

/-- Witness for C10 at a concrete two-athlete store. -/
theorem selectAthlete_unique_selection_witness :
    ((∀ p ∈ (selectAthlete storeAB (some "A")).athletes, p.2.selected = true ↔ some "A" = some p.1)
      ∧ (∀ p ∈ (selectAthlete storeAB (some "A")).athletes,
          ∀ q ∈ (selectAthlete storeAB (some "A")).athletes,
          p.2.selected = true → q.2.selected = true → p.1 = q.1)
      ∧ (some "A" = none → ∀ p ∈ (selectAthlete storeAB (some "A")).athletes, p.2.selected = false))
    ∧ ((∀ p ∈ (selectAthlete storeAB none).athletes, p.2.selected = true ↔ none = some p.1)
      ∧ (∀ p ∈ (selectAthlete storeAB none).athletes,
          ∀ q ∈ (selectAthlete storeAB none).athletes,
          p.2.selected = true → q.2.selected = true → p.1 = q.1)
      ∧ ((none : Option String) = none → ∀ p ∈ (selectAthlete storeAB none).athletes, p.2.selected = false)) :=
  ⟨selectAthlete_unique_selection storeAB (some "A"),
   selectAthlete_unique_selection storeAB none⟩

-- ===========================================================================
-- Stream client (src/frontend/src/data/streamClient.ts, `StreamClient`)
-- ===========================================================================

/-- The envelope fields inspected by `StreamClient.handleMessage` after
`JSON.parse`; a missing (`undefined`) field is `none`. -/
structure RawMsg where
  type? : Option String
  schemaVersion? : Option String
  seq? : Option Int
  deriving DecidableEq, Repr

/-- One WebSocket frame as seen by `handleMessage`: either a string on which
`JSON.parse` throws, or the parsed envelope. -/
inductive Frame
  | parseFail
  | ok (m : RawMsg)
  deriving DecidableEq, Repr

/-- JS truthiness test used on the string envelope fields (`!msg.type`,
`!msg.schema_version`): missing or empty string is falsy. -/
def jsFalsy : Option String → Bool
  | none => true
  | some s => s == ""

/-- Envelope validation (line 502):
`!msg.type || !msg.schema_version || msg.seq === undefined` — negated, i.e.
`true` when the envelope passes. -/
def envelopeValid (m : RawMsg) : Bool :=
  !(jsFalsy m.type?) && !(jsFalsy m.schemaVersion?) && !(m.seq? == none)

/-- The `seq` of a parsed envelope (meaningful once validation passed). -/
def seqOf (m : RawMsg) : Int := m.seq?.getD 0

/-- Kinds of `console.warn` calls made by the client. -/
inductive WarnKind
  | parseFailed | malformedEnvelope | seqGap | connectionStale
  deriving DecidableEq, Repr

/-- The mutable fields of `StreamClient` driven by message handling and
reconnection, plus observable logs: messages delivered to
`options.onMessage`, logged warnings, and the delays passed to the
reconnect `setTimeout`. -/
structure StreamState where
  status : ConnectionStatus
  lastSeq : Int
  messagesReceived : Nat
  parseErrors : Nat
  seqGaps : Nat
  reconnectAttempts : Nat
  delivered : List RawMsg
  warnings : List WarnKind
  scheduledDelays : List ℚ
  deriving DecidableEq, Repr

/-- Field initialisers of `StreamClient` (lines 404-413). -/
def initialStreamState : StreamState :=
  { status := .disconnected, lastSeq := 0, messagesReceived := 0, parseErrors := 0
    seqGaps := 0, reconnectAttempts := 0, delivered := [], warnings := []
    scheduledDelays := [] }

/-- Outcome of `handleMessage` for one frame. -/
inductive FrameOutcome
  | rejectedParse
  | rejectedEnvelope (m : RawMsg)
  | accepted (m : RawMsg) (gap : Bool)
  deriving DecidableEq, Repr

/-- Control flow of `StreamClient.handleMessage` (lines 497-523): the
`try/catch` around `JSON.parse`, envelope validation, and gap detection
(`this._lastSeq > 0 && msg.seq > this._lastSeq + 1`), which reads only
`_lastSeq`. -/
def classifyFrame (lastSeq : Int) : Frame → FrameOutcome
  | .parseFail => .rejectedParse
  | .ok m =>
      if !(envelopeValid m) then .rejectedEnvelope m
      else .accepted m (decide (0 < lastSeq) && decide (lastSeq + 1 < seqOf m))

/-- State update of `StreamClient.handleMessage` for one frame. -/
def handleFrame (s : StreamState) (f : Frame) : StreamState :=
  match classifyFrame s.lastSeq f with
  | .rejectedParse =>
      { s with parseErrors := s.parseErrors + 1
               warnings := s.warnings ++ [.parseFailed] }
  | .rejectedEnvelope _ =>
      { s with parseErrors := s.parseErrors + 1
               warnings := s.warnings ++ [.malformedEnvelope] }
  | .accepted m gap =>
      { s with
        seqGaps := s.seqGaps + (if gap then 1 else 0)
        warnings := s.warnings ++ (if gap then [.seqGap] else [])
        lastSeq := seqOf m
        messagesReceived := s.messagesReceived + 1
        delivered := s.delivered ++ [m] }

/-- Handle a sequence of frames. -/
def processFrames (s : StreamState) (fs : List Frame) : StreamState :=
  fs.foldl handleFrame s

/-- A frame of the kind quantified over by the malformed-input claim: it
fails JSON parsing or lacks one of `type`, `schema_version`, `seq`. -/
def droppedFrame : Frame → Bool
  | .parseFail => true
  | .ok m => (m.type? == none) || (m.schemaVersion? == none) || (m.seq? == none)

/-- The reconnect delay computed by `scheduleReconnect` (lines 529-532):
`Math.min(reconnectMinMs * Math.pow(2, Math.min(attempts, 10)), reconnectMaxMs)`. -/
def scheduleDelay (reconnectMinMs reconnectMaxMs : ℚ) (attempts : Nat) : ℚ :=
  min (reconnectMinMs * 2 ^ (min attempts 10)) reconnectMaxMs

/-- Socket lifecycle events as seen by the `StreamClient` handlers. -/
inductive StreamEvent
  | socketOpen
  | socketClose
  | frame (f : Frame)
  deriving DecidableEq, Repr

/-- One step of the `StreamClient` event handlers with the default options
(`reconnectMinMs = 1000`, `reconnectMaxMs = 30000`): `ws.onopen` resets the
attempt counter and sets status connected (lines 471-475); `ws.onclose`
sets status disconnected and runs `scheduleReconnect`, which records the
computed delay and increments the attempt counter (lines 483-486 and
525-540); `ws.onmessage` runs `handleMessage`. -/
def stepEvent (s : StreamState) (e : StreamEvent) : StreamState :=
  match e with
  | .socketOpen => { s with reconnectAttempts := 0, status := .connected }
  | .socketClose =>
      { s with status := .disconnected
               scheduledDelays := s.scheduledDelays ++
                 [scheduleDelay 1000 30000 s.reconnectAttempts]
               reconnectAttempts := s.reconnectAttempts + 1 }
  | .frame f => handleFrame s f

/-- Process a socket event trace. -/
def processEvents (s : StreamState) (es : List StreamEvent) : StreamState :=
  es.foldl stepEvent s

/-- Browser-valid event traces: a message event fires only while the socket
is open (a `WebSocket` fires `open` before any `message`). -/
def okFrom (s : StreamState) : List StreamEvent → Bool
  | [] => true
  | e :: es =>
      (match e with
       | .frame _ => decide (s.status = ConnectionStatus.connected)
       | _ => true) && okFrom (stepEvent s e) es

/-- Client actions a timer callback can perform. -/
inductive ClientAction
  | warnAction (w : WarnKind)
  | openSocketAction
  | setStatusAction (st : ConnectionStatus)
  deriving DecidableEq, Repr

/-- The body of the stale-timer callback installed by `resetStaleTimer`
(lines 542-547): when `staleTimeoutMs` elapses with no message it only logs
a staleness warning — the state is unchanged and no socket is created. -/
def staleTimerExpire (s : StreamState) : StreamState × List ClientAction :=
  (s, [ClientAction.warnAction .connectionStale])

/-- For contrast, the body of the reconnect-timer callback installed by
`scheduleReconnect` (lines 536-539): set status connecting and create a
socket. -/
def reconnectTimerExpire (s : StreamState) : StreamState × List ClientAction :=
  ({ s with status := .connecting },
   [ClientAction.setStatusAction .connecting, ClientAction.openSocketAction])

-- ===========================================================================
-- Stream client lemmas
-- ===========================================================================

theorem envelopeValid_of_dropped {m : RawMsg} (h : droppedFrame (.ok m) = true) :
    envelopeValid m = false := by
  obtain ⟨t, sv, sq⟩ := m
  cases t <;> cases sv <;> cases sq <;>
    simp_all [droppedFrame, envelopeValid, jsFalsy]

theorem handleFrame_dropped (s : StreamState) (f : Frame) (h : droppedFrame f = true) :
    ∃ w, handleFrame s f
      = { s with parseErrors := s.parseErrors + 1, warnings := s.warnings ++ [w] } := by
  cases f with
  | parseFail => exact ⟨.parseFailed, rfl⟩
  | ok m =>
      refine ⟨.malformedEnvelope, ?_⟩
      have hv := envelopeValid_of_dropped h
      simp [handleFrame, classifyFrame, hv]

/-- The frame handler ignores `parseErrors` and `warnings`: two states that
agree on the remaining handler-relevant fields evolve in lockstep, with the
`parseErrors` offset carried along. -/
theorem handleFrame_bisim (f : Frame) (s₁ s₂ : StreamState)
    (h1 : s₂.lastSeq = s₁.lastSeq)
    (h2 : s₂.messagesReceived = s₁.messagesReceived)
    (h3 : s₂.seqGaps = s₁.seqGaps)
    (h4 : s₂.delivered = s₁.delivered)
    (h5 : s₂.parseErrors = s₁.parseErrors + 1) :
    (handleFrame s₂ f).lastSeq = (handleFrame s₁ f).lastSeq
    ∧ (handleFrame s₂ f).messagesReceived = (handleFrame s₁ f).messagesReceived
    ∧ (handleFrame s₂ f).seqGaps = (handleFrame s₁ f).seqGaps
    ∧ (handleFrame s₂ f).delivered = (handleFrame s₁ f).delivered
    ∧ (handleFrame s₂ f).parseErrors = (handleFrame s₁ f).parseErrors + 1 := by
  unfold handleFrame
  rw [h1]
  cases classifyFrame s₁.lastSeq f <;> simp [h1, h2, h3, h4, h5]

theorem processFrames_bisim (rest : List Frame) :
    ∀ s₁ s₂ : StreamState,
      s₂.lastSeq = s₁.lastSeq →
      s₂.messagesReceived = s₁.messagesReceived →
      s₂.seqGaps = s₁.seqGaps →
      s₂.delivered = s₁.delivered →
      s₂.parseErrors = s₁.parseErrors + 1 →
      (processFrames s₂ rest).lastSeq = (processFrames s₁ rest).lastSeq
      ∧ (processFrames s₂ rest).messagesReceived = (processFrames s₁ rest).messagesReceived
      ∧ (processFrames s₂ rest).seqGaps = (processFrames s₁ rest).seqGaps
      ∧ (processFrames s₂ rest).delivered = (processFrames s₁ rest).delivered
      ∧ (processFrames s₂ rest).parseErrors = (processFrames s₁ rest).parseErrors + 1 := by
  induction rest with
  | nil => intro s₁ s₂ h1 h2 h3 h4 h5; exact ⟨h1, h2, h3, h4, h5⟩
  | cons f rest ih =>
      intro s₁ s₂ h1 h2 h3 h4 h5
      obtain ⟨g1, g2, g3, g4, g5⟩ := handleFrame_bisim f s₁ s₂ h1 h2 h3 h4 h5
      exact ih (handleFrame s₁ f) (handleFrame s₂ f) g1 g2 g3 g4 g5

/-- A frame that cannot break the seq-positivity discipline: rejected
frames trivially, accepted frames because their `seq` is at least 1. -/
def frameSeqOK : Frame → Bool
  | .parseFail => true
  | .ok m => !(envelopeValid m) || decide (1 ≤ seqOf m)

/-- Streams in which every well-formed envelope carries `seq ≥ 1` (the
documented wire contract: `seq` starts at 1). -/
def seqsPositive (fs : List Frame) : Bool := fs.all frameSeqOK

/-- Invariant tying `_lastSeq` to whether a message was accepted before:
`_lastSeq` is 0 before the first accepted envelope and at least 1 after. -/
def SeqInv (s : StreamState) : Prop :=
  (s.messagesReceived = 0 → s.lastSeq = 0) ∧ (0 < s.messagesReceived → 1 ≤ s.lastSeq)

theorem seqInv_step (s : StreamState) (f : Frame) (hf : frameSeqOK f = true)
    (h : SeqInv s) : SeqInv (handleFrame s f) := by
  cases f with
  | parseFail => exact ⟨fun hh => h.1 hh, fun hh => h.2 hh⟩
  | ok m =>
      by_cases hv : envelopeValid m = true
      · have hseq : 1 ≤ seqOf m := by
          simp [frameSeqOK, hv] at hf
          exact hf
        have hc : classifyFrame s.lastSeq (.ok m)
            = .accepted m (decide (0 < s.lastSeq) && decide (s.lastSeq + 1 < seqOf m)) := by
          simp [classifyFrame, hv]
        constructor
        · intro hh
          simp [handleFrame, hc] at hh
        · intro _
          simp [handleFrame, hc]
          exact hseq
      · have hv' : envelopeValid m = false := by
          cases hb : envelopeValid m
          · rfl
          · exact absurd hb hv
        have hc : classifyFrame s.lastSeq (.ok m) = .rejectedEnvelope m := by
          simp [classifyFrame, hv']
        constructor
        · intro hh
          simp [handleFrame, hc] at hh ⊢
          exact h.1 hh
        · intro hh
          simp [handleFrame, hc] at hh ⊢
          exact h.2 hh

theorem seqInv_processFrames (fs : List Frame) :
    ∀ s : StreamState, seqsPositive fs = true → SeqInv s → SeqInv (processFrames s fs) := by
  induction fs with
  | nil => intro s _ h; exact h
  | cons f fs ih =>
      intro s hfs h
      simp only [seqsPositive, List.all_cons, Bool.and_eq_true] at hfs
      exact ih (handleFrame s f) hfs.2 (seqInv_step s f hfs.1 h)

theorem handleFrame_status (s : StreamState) (f : Frame) :
    (handleFrame s f).status = s.status
    ∧ (handleFrame s f).reconnectAttempts = s.reconnectAttempts := by
  unfold handleFrame
  cases classifyFrame s.lastSeq f <;> simp

theorem processEvents_append (s : StreamState) (es es' : List StreamEvent) :
    processEvents s (es ++ es') = processEvents (processEvents s es) es' := by
  simp [processEvents, List.foldl_append]

theorem okFrom_append (es es' : List StreamEvent) :
    ∀ s : StreamState,
      okFrom s (es ++ es') = (okFrom s es && okFrom (processEvents s es) es') := by
  induction es with
  | nil => intro s; simp [okFrom, processEvents]
  | cons e es ih =>
      intro s
      have hP : processEvents s (e :: es) = processEvents (stepEvent s e) es := rfl
      simp only [List.cons_append, okFrom, hP, List.append_eq]
      rw [ih (stepEvent s e), Bool.and_assoc]

/-- While the socket is connected the attempt counter is 0 (it was reset by
`onopen` and only `onclose` increments it). -/
def ConnInv (s : StreamState) : Prop :=
  s.status = ConnectionStatus.connected → s.reconnectAttempts = 0

theorem connInv_processEvents (es : List StreamEvent) :
    ∀ s : StreamState, okFrom s es = true → ConnInv s → ConnInv (processEvents s es) := by
  induction es with
  | nil => intro s _ h; exact h
  | cons e es ih =>
      intro s hok h
      simp only [okFrom, Bool.and_eq_true] at hok
      apply ih (stepEvent s e) hok.2
      cases e with
      | socketOpen => intro _; rfl
      | socketClose =>
          intro hh
          simp [stepEvent] at hh
      | frame f =>
          intro hh
          have hs := handleFrame_status s f
          show (handleFrame s f).reconnectAttempts = 0
          rw [hs.2]
          apply h
          rw [← hs.1]
          exact hh

theorem scheduleDelay_eq (n : Nat) :
    scheduleDelay 1000 30000 n = min (1000 * 2 ^ n) 30000 := by
  unfold scheduleDelay
  by_cases h : n ≤ 10
  · rw [min_eq_left h]
  · have h10 : min n 10 = 10 := min_eq_right (by omega)
    rw [h10]
    have hpow : (2 : ℚ) ^ 10 ≤ 2 ^ n := by
      apply pow_le_pow_right (by norm_num) (by omega)
    have hval : (2 : ℚ) ^ 10 = 1024 := by norm_num
    rw [hval] at hpow
    have h1 : (30000 : ℚ) ≤ 1000 * 2 ^ n := by linarith
    have h2 : (30000 : ℚ) ≤ 1000 * 2 ^ 10 := by norm_num
    rw [min_eq_right h2, min_eq_right h1]

/-- A well-formed envelope with the given `seq` value. -/
def consecMsg (k : Int) : RawMsg :=
  { type? := some "t", schemaVersion? := some "1.0", seq? := some k }

/-- Frames carrying consecutive sequence numbers `k, k+1, ...` (`n` of them). -/
def consecFrames : Int → Nat → List Frame
  | _, 0 => []
  | k, n + 1 => .ok (consecMsg k) :: consecFrames (k + 1) n

theorem consec_no_gap : ∀ (n : Nat) (k : Int) (s : StreamState), s.lastSeq = k →
    (processFrames s (consecFrames (k + 1) n)).seqGaps = s.seqGaps := by
  intro n
  induction n with
  | zero => intro k s _; rfl
  | succ n ih =>
      intro k s h
      have hval : envelopeValid (consecMsg (k + 1)) = true := rfl
      have hc : classifyFrame s.lastSeq (.ok (consecMsg (k + 1)))
          = .accepted (consecMsg (k + 1))
              (decide (0 < s.lastSeq) && decide (s.lastSeq + 1 < seqOf (consecMsg (k + 1)))) := by
        simp [classifyFrame, hval]
      have hgap : (decide (0 < s.lastSeq) && decide (s.lastSeq + 1 < seqOf (consecMsg (k + 1)))) = false := by
        rw [show seqOf (consecMsg (k + 1)) = k + 1 from rfl, h]
        simp
      have hls : (handleFrame s (.ok (consecMsg (k + 1)))).lastSeq = k + 1 := by
        unfold handleFrame
        rw [hc]
        rfl
      have hsg : (handleFrame s (.ok (consecMsg (k + 1)))).seqGaps = s.seqGaps := by
        unfold handleFrame
        rw [hc]
        simp [hgap]
      calc (processFrames s (consecFrames (k + 1) (n + 1))).seqGaps
          = (processFrames (handleFrame s (.ok (consecMsg (k + 1)))) (consecFrames (k + 1 + 1) n)).seqGaps := rfl
        _ = (handleFrame s (.ok (consecMsg (k + 1)))).seqGaps := ih (k + 1) _ hls
        _ = s.seqGaps := hsg

-- ===========================================================================
-- Claim theorems: the stream client
-- ===========================================================================

/-- C2: a frame that fails JSON parsing or lacks `type`, `schema_version`
or `seq` is dropped: the message callback is not invoked (`delivered`
unchanged), the parse-error counter is incremented by exactly one, exactly
one structured warning is logged, no other handler state changes, and every
subsequent frame is processed exactly as it would have been without the bad
frame (all observables agree, with the parse-error counter offset by the
single increment). -/
theorem malformed_frame_dropped (s : StreamState) (f : Frame) (h : droppedFrame f = true) :
    ((handleFrame s f).delivered = s.delivered
     ∧ (handleFrame s f).parseErrors = s.parseErrors + 1
     ∧ (∃ w, (handleFrame s f).warnings = s.warnings ++ [w])
     ∧ (handleFrame s f).lastSeq = s.lastSeq
     ∧ (handleFrame s f).messagesReceived = s.messagesReceived
     ∧ (handleFrame s f).seqGaps = s.seqGaps)
    ∧ (∀ rest : List Frame,
        (processFrames (handleFrame s f) rest).lastSeq = (processFrames s rest).lastSeq
        ∧ (processFrames (handleFrame s f) rest).messagesReceived
            = (processFrames s rest).messagesReceived
        ∧ (processFrames (handleFrame s f) rest).seqGaps = (processFrames s rest).seqGaps
        ∧ (processFrames (handleFrame s f) rest).delivered = (processFrames s rest).delivered
        ∧ (processFrames (handleFrame s f) rest).parseErrors
            = (processFrames s rest).parseErrors + 1) := by
  obtain ⟨w, hw⟩ := handleFrame_dropped s f h
  constructor
  · rw [hw]
    exact ⟨rfl, rfl, ⟨w, rfl⟩, rfl, rfl, rfl⟩
  · intro rest
    exact processFrames_bisim rest s (handleFrame s f)
      (by rw [hw]) (by rw [hw]) (by rw [hw]) (by rw [hw]) (by rw [hw])

/-- A concrete frame lacking its `type` field. -/
def badFrame : Frame := .ok { type? := none, schemaVersion? := some "1.0", seq? := some 1 }

/-- Witness for C2 at concrete inputs. -/
theorem malformed_frame_dropped_witness :
    ((handleFrame initialStreamState badFrame).delivered = initialStreamState.delivered
     ∧ (handleFrame initialStreamState badFrame).parseErrors = initialStreamState.parseErrors + 1
     ∧ (∃ w, (handleFrame initialStreamState badFrame).warnings = initialStreamState.warnings ++ [w])
     ∧ (handleFrame initialStreamState badFrame).lastSeq = initialStreamState.lastSeq
     ∧ (handleFrame initialStreamState badFrame).messagesReceived = initialStreamState.messagesReceived
     ∧ (handleFrame initialStreamState badFrame).seqGaps = initialStreamState.seqGaps)
    ∧ (∀ rest : List Frame,
        (processFrames (handleFrame initialStreamState badFrame) rest).lastSeq
            = (processFrames initialStreamState rest).lastSeq
        ∧ (processFrames (handleFrame initialStreamState badFrame) rest).messagesReceived
            = (processFrames initialStreamState rest).messagesReceived
        ∧ (processFrames (handleFrame initialStreamState badFrame) rest).seqGaps
            = (processFrames initialStreamState rest).seqGaps
        ∧ (processFrames (handleFrame initialStreamState badFrame) rest).delivered
            = (processFrames initialStreamState rest).delivered
        ∧ (processFrames (handleFrame initialStreamState badFrame) rest).parseErrors
            = (processFrames initialStreamState rest).parseErrors + 1) :=
  malformed_frame_dropped initialStreamState badFrame (by decide)

/-- C3: the scheduled reconnect delay follows exponential backoff with base
1000 ms and cap 30000 ms — for every attempt `n` it equals
`(1 + j) * min (1000 * 2 ^ n) 30000` for a jitter factor `j` with
`|j| ≤ 20%` (the code's jitter factor is identically 0, which lies inside
the allowed band), staying within `[1000, 30000]` — and after a successful
receive (a message event, which on a browser socket can only follow the
`open` that reset the attempt counter) the backoff is back at its base:
the attempt counter is 0 and the next scheduled delay would be 1000 ms. -/
theorem reconnect_backoff_spec :
    (∀ n : Nat, ∃ j : ℚ, |j| ≤ 1 / 5
        ∧ scheduleDelay 1000 30000 n = (1 + j) * min (1000 * 2 ^ n) 30000
        ∧ 1000 ≤ scheduleDelay 1000 30000 n ∧ scheduleDelay 1000 30000 n ≤ 30000)
    ∧ (∀ (es : List StreamEvent) (f : Frame),
        okFrom initialStreamState (es ++ [.frame f]) = true →
        (processEvents initialStreamState (es ++ [.frame f])).reconnectAttempts = 0
        ∧ scheduleDelay 1000 30000
            (processEvents initialStreamState (es ++ [.frame f])).reconnectAttempts = 1000) := by
  constructor
  · intro n
    refine ⟨0, by norm_num, ?_, ?_, ?_⟩
    · rw [scheduleDelay_eq]
      norm_num
    · unfold scheduleDelay
      apply le_min
      · have h1 : (2 : ℚ) ^ 0 ≤ 2 ^ (min n 10) := pow_le_pow_right (by norm_num) (Nat.zero_le _)
        simp only [pow_zero] at h1
        linarith
      · norm_num
    · unfold scheduleDelay
      exact min_le_right _ _
  · intro es f hok
    rw [okFrom_append] at hok
    simp only [Bool.and_eq_true] at hok
    obtain ⟨hok1, hok2⟩ := hok
    have hconn : (processEvents initialStreamState es).status = ConnectionStatus.connected := by
      simp only [okFrom, Bool.and_eq_true] at hok2
      exact of_decide_eq_true hok2.1
    have hattempts : (processEvents initialStreamState es).reconnectAttempts = 0 :=
      connInv_processEvents es initialStreamState hok1 (fun _ => rfl) hconn
    have hfinal : (processEvents initialStreamState (es ++ [.frame f])).reconnectAttempts = 0 := by
      rw [processEvents_append]
      show (handleFrame (processEvents initialStreamState es) f).reconnectAttempts = 0
      rw [(handleFrame_status _ f).2]
      exact hattempts
    refine ⟨hfinal, ?_⟩
    rw [hfinal]
    norm_num [scheduleDelay]

/-- Witness for C3 at concrete inputs. -/
theorem reconnect_backoff_spec_witness :
    (∃ j : ℚ, |j| ≤ 1 / 5
        ∧ scheduleDelay 1000 30000 3 = (1 + j) * min (1000 * 2 ^ 3) 30000
        ∧ 1000 ≤ scheduleDelay 1000 30000 3 ∧ scheduleDelay 1000 30000 3 ≤ 30000)
    ∧ ((processEvents initialStreamState ([.socketOpen] ++ [.frame badFrame])).reconnectAttempts = 0
        ∧ scheduleDelay 1000 30000
            (processEvents initialStreamState ([.socketOpen] ++ [.frame badFrame])).reconnectAttempts
          = 1000) :=
  ⟨reconnect_backoff_spec.1 3,
   reconnect_backoff_spec.2 [.socketOpen] badFrame (by decide)⟩

/-- C4: over any stream whose well-formed envelopes carry `seq ≥ 1` (the
wire contract: `seq` starts at 1 and increments), handling a further valid
envelope accepts it unconditionally — even when its `seq` is less than or
equal to the previous one — and increments `seqGaps` exactly when an
envelope had been accepted before and the new `seq` exceeds the previous
accepted `seq` plus one; a stream of consecutive sequence numbers produces
no gap counts. -/
theorem seq_gap_counter_spec (fs : List Frame) (m : RawMsg)
    (hfs : seqsPositive fs = true) (hv : envelopeValid m = true) (hm : 1 ≤ seqOf m) :
    (handleFrame (processFrames initialStreamState fs) (.ok m)).messagesReceived
        = (processFrames initialStreamState fs).messagesReceived + 1
    ∧ (handleFrame (processFrames initialStreamState fs) (.ok m)).delivered
        = (processFrames initialStreamState fs).delivered ++ [m]
    ∧ (handleFrame (processFrames initialStreamState fs) (.ok m)).lastSeq = seqOf m
    ∧ ((handleFrame (processFrames initialStreamState fs) (.ok m)).seqGaps
          = (processFrames initialStreamState fs).seqGaps + 1
        ↔ (0 < (processFrames initialStreamState fs).messagesReceived
            ∧ (processFrames initialStreamState fs).lastSeq + 1 < seqOf m))
    ∧ ((handleFrame (processFrames initialStreamState fs) (.ok m)).seqGaps
          = (processFrames initialStreamState fs).seqGaps
        ↔ ¬(0 < (processFrames initialStreamState fs).messagesReceived
            ∧ (processFrames initialStreamState fs).lastSeq + 1 < seqOf m))
    ∧ (∀ n : Nat, (processFrames initialStreamState (consecFrames 1 n)).seqGaps = 0) := by
  have hInv : SeqInv (processFrames initialStreamState fs) :=
    seqInv_processFrames fs initialStreamState hfs
      ⟨fun _ => rfl, fun hh => absurd hh (lt_irrefl 0)⟩
  set P := processFrames initialStreamState fs with hP
  have hc : classifyFrame P.lastSeq (.ok m)
      = .accepted m (decide (0 < P.lastSeq) && decide (P.lastSeq + 1 < seqOf m)) := by
    simp [classifyFrame, hv]
  have hls : 0 < P.lastSeq ↔ 0 < P.messagesReceived := by
    constructor
    · intro h0
      rcases Nat.eq_zero_or_pos P.messagesReceived with hz | hp
      · rw [hInv.1 hz] at h0
        exact absurd h0 (lt_irrefl 0)
      · exact hp
    · intro h0
      exact lt_of_lt_of_le zero_lt_one (hInv.2 h0)
  have hgap_iff : ((decide (0 < P.lastSeq) && decide (P.lastSeq + 1 < seqOf m)) = true)
      ↔ (0 < P.messagesReceived ∧ P.lastSeq + 1 < seqOf m) := by
    rw [Bool.and_eq_true, decide_eq_true_eq, decide_eq_true_eq, hls]
  refine ⟨?_, ?_, ?_, ?_, ?_, ?_⟩
  · simp [handleFrame, hc]
  · simp [handleFrame, hc]
  · simp [handleFrame, hc]
  · constructor
    · intro hEq
      by_cases hg : (decide (0 < P.lastSeq) && decide (P.lastSeq + 1 < seqOf m)) = true
      · exact hgap_iff.mp hg
      · exfalso
        have hg' := Bool.eq_false_iff.mpr hg
        simp [handleFrame, hc, hg'] at hEq
    · intro hprop
      have hg := hgap_iff.mpr hprop
      simp [handleFrame, hc, hg]
  · constructor
    · intro hEq hprop
      have hg := hgap_iff.mpr hprop
      simp [handleFrame, hc, hg] at hEq
    · intro hprop
      have hg : (decide (0 < P.lastSeq) && decide (P.lastSeq + 1 < seqOf m)) = false := by
        cases hb : (decide (0 < P.lastSeq) && decide (P.lastSeq + 1 < seqOf m))
        · rfl
        · exact absurd (hgap_iff.mp hb) hprop
      simp [handleFrame, hc, hg]
  · intro n
    have hstart := consec_no_gap n 0 initialStreamState rfl
    have he : (0 : Int) + 1 = 1 := by norm_num
    rw [he] at hstart
    simpa using hstart

/-- Witness for C4 at concrete inputs: after accepting `seq = 1`, an
envelope with `seq = 5` is accepted and counts a gap. -/
theorem seq_gap_counter_spec_witness :
    (handleFrame (processFrames initialStreamState [.ok (consecMsg 1)]) (.ok (consecMsg 5))).messagesReceived
        = (processFrames initialStreamState [.ok (consecMsg 1)]).messagesReceived + 1
    ∧ (handleFrame (processFrames initialStreamState [.ok (consecMsg 1)]) (.ok (consecMsg 5))).delivered
        = (processFrames initialStreamState [.ok (consecMsg 1)]).delivered ++ [consecMsg 5]
    ∧ (handleFrame (processFrames initialStreamState [.ok (consecMsg 1)]) (.ok (consecMsg 5))).lastSeq
        = seqOf (consecMsg 5)
    ∧ ((handleFrame (processFrames initialStreamState [.ok (consecMsg 1)]) (.ok (consecMsg 5))).seqGaps
          = (processFrames initialStreamState [.ok (consecMsg 1)]).seqGaps + 1
        ↔ (0 < (processFrames initialStreamState [.ok (consecMsg 1)]).messagesReceived
            ∧ (processFrames initialStreamState [.ok (consecMsg 1)]).lastSeq + 1 < seqOf (consecMsg 5)))
    ∧ ((handleFrame (processFrames initialStreamState [.ok (consecMsg 1)]) (.ok (consecMsg 5))).seqGaps
          = (processFrames initialStreamState [.ok (consecMsg 1)]).seqGaps
        ↔ ¬(0 < (processFrames initialStreamState [.ok (consecMsg 1)]).messagesReceived
            ∧ (processFrames initialStreamState [.ok (consecMsg 1)]).lastSeq + 1 < seqOf (consecMsg 5)))
    ∧ (∀ n : Nat, (processFrames initialStreamState (consecFrames 1 n)).seqGaps = 0) :=
  seq_gap_counter_spec [.ok (consecMsg 1)] (consecMsg 5) (by decide) (by decide) (by decide)

/-- C5: the stale-timer callback fired after `staleTimeoutMs = 15000` ms of
silence does not initiate a new connection — it leaves the client state
unchanged and performs only a staleness warning (no socket creation),
unlike the reconnect-timer callback, which does open a socket.  This
contradicts the documented behavior ("client should reconnect if no
message received for 15 s"). -/
theorem stale_timer_only_warns (s : StreamState) :
    (staleTimerExpire s).1 = s
    ∧ ClientAction.openSocketAction ∉ (staleTimerExpire s).2
    ∧ (staleTimerExpire s).2 = [ClientAction.warnAction .connectionStale]
    ∧ ClientAction.openSocketAction ∈ (reconnectTimerExpire s).2 := by
  refine ⟨rfl, ?_, rfl, ?_⟩ <;> simp [staleTimerExpire, reconnectTimerExpire]

-- ===========================================================================
-- Bearing computation (src/frontend/src/lib/formatters.ts), over the reals
-- ===========================================================================

/-- JS `Math.atan2(y, x)` read over the reals (the signed-zero distinction
collapses to 0). -/
noncomputable def atan2 (y x : ℝ) : ℝ :=
  if 0 < x then Real.arctan (y / x)
  else if x < 0 then
    (if 0 ≤ y then Real.arctan (y / x) + Real.pi else Real.arctan (y / x) - Real.pi)
  else
    (if 0 < y then Real.pi / 2 else if y < 0 then -(Real.pi / 2) else 0)

/-- JS remainder `a % b`: `a - b * trunc (a / b)` (truncation toward zero,
so floor for a nonnegative quotient and ceiling for a negative one). -/
noncomputable def jsMod (a b : ℝ) : ℝ :=
  if 0 ≤ a / b then a - b * ⌊a / b⌋ else a - b * ⌈a / b⌉

/-- Function `computeBearing` (formatters.ts lines 113-122) with JS numbers read as
real numbers:
`((Math.atan2(y, x) * 180 / Math.PI) + 360) % 360`. -/
noncomputable def computeBearing (lat1 lon1 lat2 lon2 : ℝ) : ℝ :=
  let dLon := (lon2 - lon1) * Real.pi / 180
  let y := Real.sin dLon * Real.cos (lat2 * Real.pi / 180)
  let x := Real.cos (lat1 * Real.pi / 180) * Real.sin (lat2 * Real.pi / 180) -
    Real.sin (lat1 * Real.pi / 180) * Real.cos (lat2 * Real.pi / 180) * Real.cos dLon
  jsMod (atan2 y x * 180 / Real.pi + 360) 360

theorem atan2_mem_Ioc (y x : ℝ) : atan2 y x ∈ Set.Ioc (-Real.pi) Real.pi := by
  have hπ := Real.pi_pos
  have harctanlt := Real.arctan_lt_pi_div_two (y / x)
  have harctangt := Real.neg_pi_div_two_lt_arctan (y / x)
  unfold atan2
  split_ifs with hx hx2 hy hy2 hy3
  · exact ⟨by linarith, by linarith⟩
  · have hdiv : y / x ≤ 0 := div_nonpos_iff.mpr (Or.inl ⟨hy, le_of_lt hx2⟩)
    have hle : Real.arctan (y / x) ≤ 0 := by
      have hm := Real.arctan_strictMono.monotone hdiv
      rwa [Real.arctan_zero] at hm
    exact ⟨by linarith, by linarith⟩
  · have hdiv : 0 < y / x := div_pos_iff.mpr (Or.inr ⟨by linarith, hx2⟩)
    have hgt : 0 < Real.arctan (y / x) := by
      have hm := Real.arctan_strictMono hdiv
      rwa [Real.arctan_zero] at hm
    exact ⟨by linarith, by linarith⟩
  · exact ⟨by linarith, by linarith⟩
  · exact ⟨by linarith, by linarith⟩
  · exact ⟨by linarith, by linarith⟩

theorem jsMod_nonneg_lt (a : ℝ) (ha : 0 < a) : 0 ≤ jsMod a 360 ∧ jsMod a 360 < 360 := by
  have hb : (0 : ℝ) < 360 := by norm_num
  have hq : 0 ≤ a / 360 := le_of_lt (div_pos ha hb)
  have hcancel : (360 : ℝ) * (a / 360) = a := by field_simp
  have h1 : a - 360 * ⌊a / 360⌋ = 360 * Int.fract (a / 360) := by
    rw [Int.fract, mul_sub, hcancel]
  unfold jsMod
  rw [if_pos hq, h1]
  constructor
  · exact mul_nonneg (by norm_num) (Int.fract_nonneg _)
  · have hlt := Int.fract_lt_one (a / 360)
    nlinarith

theorem bearing_formula_mem (θ : ℝ) (h : θ ∈ Set.Ioc (-Real.pi) Real.pi) :
    0 ≤ jsMod (θ * 180 / Real.pi + 360) 360 ∧ jsMod (θ * 180 / Real.pi + 360) 360 < 360 := by
  apply jsMod_nonneg_lt
  have hπ := Real.pi_pos
  have h180 : (0 : ℝ) < 180 / Real.pi := div_pos (by norm_num) hπ
  have hgt : -Real.pi * (180 / Real.pi) < θ * (180 / Real.pi) :=
    mul_lt_mul_of_pos_right h.1 h180
  have hval : -Real.pi * (180 / Real.pi) = -180 := by
    field_simp
    ring
  have heq : θ * 180 / Real.pi = θ * (180 / Real.pi) := by ring
  rw [heq]
  linarith [hval ▸ hgt]

/-- C8: for every pair of latitude/longitude points, `computeBearing`
returns an angle in degrees lying in `[0, 360)`: `Math.atan2` lands in
`(-pi, pi]`, conversion to degrees and adding 360 lands in `(180, 540]`,
and the JS remainder by 360 of a positive number lands in `[0, 360)`. -/
theorem computeBearing_mem_Ico (lat1 lon1 lat2 lon2 : ℝ) :
    0 ≤ computeBearing lat1 lon1 lat2 lon2 ∧ computeBearing lat1 lon1 lat2 lon2 < 360 := by
  unfold computeBearing
  exact bearing_formula_mem _ (atan2_mem_Ioc _ _)

end HKSI
